import Mathlib

/-!
Verification development for the s3-file-server repository: a shallow
embedding of its two decrypting range-streaming routes (a repeating-key
XOR stream and AES-CTR with an IV prefix) together with theorems about
the range/conditional-request handling and the offset arithmetic of the
cipher streams.

Machine integers are modelled as `Nat`/`Int` with explicit `% 2 ^ w`
where the Go code relies on fixed-width wrap-around.  The AES block
cipher is an opaque parameter `E : Nat → Nat → Nat`, taking the value of
the 16-byte counter block (modulo `2 ^ 128`, since Go's `cipher.NewCTR`
increments the counter big-endian across the whole block) and an index
within the encrypted counter block, and returning that keystream byte.
-/

set_option maxRecDepth 100000

namespace S3FS

/-- Big-endian value of a byte list (models `binary.BigEndian.Uint64`
applied to 8 bytes, and the value of a 16-byte CTR counter block). -/
def beBytesToNat (bs : List Nat) : Nat :=
  bs.foldl (fun a b => a * 256 + b) 0

/-- Big-endian 8-byte encoding of the low 64 bits of a number (models
`binary.BigEndian.PutUint64`). -/
def beNatToBytes8 (x : Nat) : List Nat :=
  [x / 2 ^ 56 % 256, x / 2 ^ 48 % 256, x / 2 ^ 40 % 256, x / 2 ^ 32 % 256,
   x / 2 ^ 24 % 256, x / 2 ^ 16 % 256, x / 2 ^ 8 % 256, x % 256]

/-- `aes.BlockSize`. -/
def blockSize : Nat := 16

/-- Keystream byte at absolute position `j` of a Go `cipher.NewCTR`
stream whose initial 16-byte counter block has value `c0`: the counter
is incremented with carry across the whole block, i.e. modulo `2 ^ 128`. -/
def ctrKSByte (E : Nat → Nat → Nat) (c0 j : Nat) : Nat :=
  E ((c0 + j / blockSize) % 2 ^ 128) (j % blockSize)

/-- `stream.XORKeyStream` on a byte list, starting at keystream position
`pos` of a CTR stream seeded with counter value `c0`. -/
def ctrXorBytes (E : Nat → Nat → Nat) (c0 : Nat) : Nat → List Nat → List Nat
  | _, [] => []
  | pos, b :: rest => (b ^^^ ctrKSByte E c0 pos) :: ctrXorBytes E c0 (pos + 1) rest

/-- The IV after `NewCTRReader`'s counter seeding: the low 8 bytes are
re-encoded as `uint64(ivLow) + uint64(offset / aes.BlockSize)` (wrapping
modulo `2 ^ 64`), the remaining bytes are untouched
(`binary.BigEndian.Uint64(iv[len(iv)-8:])`, `counter += uint64(offset /
aes.BlockSize)`, `binary.BigEndian.PutUint64(iv[len(iv)-8:], counter)`). -/
def NewCTRReaderIV (iv : List Nat) (offset : Nat) : List Nat :=
  let counter := (beBytesToNat (iv.drop (iv.length - 8)) + offset / blockSize) % 2 ^ 64
  iv.take (iv.length - 8) ++ beNatToBytes8 counter

/-- State of the stream `NewCTRReader` hands back: the seeded counter
value and the keystream position after the dummy `XORKeyStream` that
discards `offset % aes.BlockSize` bytes (`if offsetWithinBlock > 0`). -/
def NewCTRReaderState (iv : List Nat) (offset : Nat) : Nat × Nat :=
  let c0 := beBytesToNat (NewCTRReaderIV iv offset)
  let pos := if offset % blockSize > 0 then offset % blockSize else 0
  (c0, pos)

/-- `ctrReader.Read` drained over a whole fetched byte sequence: every
byte read from the underlying reader is XORed against the next
keystream bytes. -/
def ctrReaderReadAll (E : Nat → Nat → Nat) (iv : List Nat) (offset : Nat)
    (data : List Nat) : List Nat :=
  ctrXorBytes E (NewCTRReaderState iv offset).1 (NewCTRReaderState iv offset).2 data

/-- `NewCTRWriter` followed by writing the whole plaintext: the raw IV
(the freshly generated random bytes, here a parameter) is written first,
then the plaintext is XORed against the CTR keystream from position 0. -/
def CTRWriterOutput (E : Nat → Nat → Nat) (iv : List Nat) (pt : List Nat) : List Nat :=
  iv ++ ctrXorBytes E (beBytesToNat iv) 0 pt

/-- The data path of `ServeCTRFile` reading back a stored object at
plaintext offset `o`: the IV is the object's first `aes.BlockSize`
bytes, the ciphertext fetch starts at storage offset `o + 16`, and the
reader is seeded at the plaintext offset `o`. -/
def CTRRoundTrip (E : Nat → Nat → Nat) (stored : List Nat) (o : Nat) : List Nat :=
  ctrReaderReadAll E (stored.take blockSize) o (stored.drop (blockSize + o))

/-- The loop body of `xorReader.Read` / `xorWriter.Write`:
`p[i] ^= key[(offset+i) % keyLen]` for `i` from 0. -/
def xorLoop (key : List Nat) (offset : Nat) : Nat → List Nat → List Nat
  | _, [] => []
  | i, b :: rest => (b ^^^ key.getD ((offset + i) % key.length) 0) :: xorLoop key offset (i + 1) rest

/-- The `xorReader` value built by `NewXorReader`: the constructor has
no error return, whatever the key. -/
structure XorReader where
  key : List Nat
  offset : Nat

/-- `NewXorReader`: stores the key and starting offset, unconditionally. -/
def NewXorReader (key : List Nat) (offset : Nat) : XorReader :=
  { key := key, offset := offset }

/-- One `xorReader.Read` call over the chunk `p`: transforms the bytes
and advances the cursor by the number of bytes consumed.  With an empty
key and at least one byte read, `(offset+i) % 0` divides by zero, which
panics in Go: modelled as `none`. -/
def xorReaderRead (key : List Nat) (offset : Nat) (p : List Nat) :
    Option (List Nat × Nat) :=
  if key.length = 0 ∧ p.length ≠ 0 then none
  else some (xorLoop key offset 0 p, offset + p.length)

/-- A sequence of `xorReader.Read` calls, one per chunk, threading the
cursor. -/
def xorReaderReadChunks (key : List Nat) (offset : Nat) :
    List (List Nat) → Option (List (List Nat) × Nat)
  | [] => some ([], offset)
  | c :: cs =>
    match xorReaderRead key offset c with
    | none => none
    | some (out, off1) =>
      match xorReaderReadChunks key off1 cs with
      | none => none
      | some (outs, offF) => some (out :: outs, offF)

/-- Digit accumulation of `strconv.ParseInt` in base 10: `none` on the
first non-digit character. -/
def digitsValAux : List Char → Nat → Option Nat
  | [], acc => some acc
  | c :: cs, acc =>
    if c.isDigit then digitsValAux cs (acc * 10 + (c.toNat - 48)) else none

/-- Value of a non-empty all-digit character list; `none` otherwise. -/
def digitsVal (cs : List Char) : Option Nat :=
  if cs.isEmpty then none else digitsValAux cs 0

/-- `strconv.ParseInt(s, 10, 64)` as consumed by the handlers, which
discard the error value: a syntax error yields 0, a range error yields
the clamped int64 bound. -/
def parseInt64 (s : String) : Int :=
  match s.toList with
  | '-' :: rest =>
    match digitsVal rest with
    | none => 0
    | some n => if n > 2 ^ 63 then -(2 ^ 63) else -(n : Int)
  | '+' :: rest =>
    match digitsVal rest with
    | none => 0
    | some n => if n ≥ 2 ^ 63 then 2 ^ 63 - 1 else (n : Int)
  | l =>
    match digitsVal l with
    | none => 0
    | some n => if n ≥ 2 ^ 63 then 2 ^ 63 - 1 else (n : Int)

/-- `strings.TrimPrefix`, on the character lists backing the strings. -/
def trimPrefixGo (s pre : String) : String :=
  if pre.data.isPrefixOf s.data then String.mk (s.data.drop pre.data.length) else s

/-- `strings.Split(s, "-")` on a character list: cut at every `-`. -/
def splitDashChars : List Char → List (List Char)
  | [] => [[]]
  | c :: rest =>
    match splitDashChars rest with
    | [] => [[c]]
    | h :: t => if c = '-' then [] :: h :: t else (c :: h) :: t

/-- `strings.Split(s, "-")`. -/
def splitDash (s : String) : List String :=
  (splitDashChars s.data).map String.mk

/-- The effective byte range a handler settles on, plus the `isPartial`
flag it keeps for status/header selection. -/
structure ResolvedRange where
  start : Int
  stop : Int
  isPartial : Bool
deriving DecidableEq

/-- Range-header handling of `ServeXORFile`: defaults `[0, fileSize-1]`;
a non-empty header makes the response partial; with exactly two
`-`-separated parts, a negative start is reset to 0 and the end is
replaced by `fileSize - 1` when it is 0 or strictly greater than
`fileSize`. -/
def resolveRangeXor (fileSize : Int) (rangeHeader : String) : ResolvedRange :=
  if rangeHeader = "" then ⟨0, fileSize - 1, false⟩
  else
    let parts := splitDash (trimPrefixGo rangeHeader "bytes=")
    if parts.length = 2 then
      let start0 := parseInt64 (parts.getD 0 "")
      let start1 := if start0 < 0 then 0 else start0
      let end0 := parseInt64 (parts.getD 1 "")
      let end1 := if end0 = 0 ∨ end0 > fileSize then fileSize - 1 else end0
      ⟨start1, end1, true⟩
    else ⟨0, fileSize - 1, true⟩

/-- Range-header handling of `ServeCTRFile`: same shape, against
`realFileSize = fileSize - aes.BlockSize`, but the end is replaced
already when it is greater than or equal to `realFileSize`. -/
def resolveRangeCtr (realFileSize : Int) (rangeHeader : String) : ResolvedRange :=
  if rangeHeader = "" then ⟨0, realFileSize - 1, false⟩
  else
    let parts := splitDash (trimPrefixGo rangeHeader "bytes=")
    if parts.length = 2 then
      let start0 := parseInt64 (parts.getD 0 "")
      let start1 := if start0 < 0 then 0 else start0
      let end0 := parseInt64 (parts.getD 1 "")
      let end1 := if end0 = 0 ∨ end0 ≥ realFileSize then realFileSize - 1 else end0
      ⟨start1, end1, true⟩
    else ⟨0, realFileSize - 1, true⟩

/-- A storage fetch issued by a handler: the metadata lookup or a ranged
`GetObject` with inclusive ciphertext-space bounds. -/
inductive Fetch where
  | head : Fetch
  | getRange : Int → Int → Fetch
deriving DecidableEq

/-- The stored object and its metadata as the S3 collaborator reports
them: `size` from `HeadObject`, the two last-modified values seen by the
head and ranged fetches (times as integers), and the raw stored bytes. -/
structure Store where
  size : Int
  headLastModified : Int
  getLastModified : Int
  content : List Nat

/-- What a ranged `GetObject` returns for inclusive bounds `[lo, hi]`:
the stored bytes from `lo`, truncated at the object's end. -/
def storeSlice (content : List Nat) (lo hi : Int) : List Nat :=
  (content.drop lo.toNat).take (hi - lo + 1).toNat

/-- The response facts the claims are about: status code, and the
Content-Length, Content-Range (start, end, size) and decrypted body
when they are set (`body = none` models a Read panic mid-copy). -/
structure GoResponse where
  status : Nat
  contentLength : Option Int
  contentRange : Option (Int × Int × Int)
  body : Option (List Nat)

/-- An error/short-circuit response: only the status is set. -/
def errResponse (status : Nat) : GoResponse :=
  { status := status, contentLength := none, contentRange := none, body := none }

/-- Tail of `ServeXORFile` after the body fetch and the
If-Unmodified-Since check: attach `NewXorReader(body, key, start)`,
set Content-Length `end-start+1`, and for a partial request the
Content-Range over `fileSize` and status 206, else 200. -/
def xorFinal (key : List Nat) (store : Store) (r : ResolvedRange) : GoResponse :=
  let fetched := storeSlice store.content r.start r.stop
  let body :=
    match xorReaderRead key r.start.toNat fetched with
    | none => none
    | some (out, _) => some out
  { status := if r.isPartial then 206 else 200
    contentLength := some (r.stop - r.start + 1)
    contentRange := if r.isPartial then some (r.start, r.stop, store.size) else none
    body := body }

/-- `ServeXORFile` from the resolved range on: the `start >= end` check
(416), the ranged body fetch, the If-Unmodified-Since check against the
fetch's own Last-Modified (412), then the streamed response. -/
def serveXORRange (key : List Nat) (store : Store) (r : ResolvedRange)
    (ius : Option (Option Int)) : GoResponse × List Fetch :=
  if r.start ≥ r.stop then (errResponse 416, [Fetch.head])
  else
    let events := [Fetch.head, Fetch.getRange r.start r.stop]
    match ius with
    | some none => (errResponse 400, events)
    | some (some t) =>
      if t ≤ store.getLastModified then (errResponse 412, events)
      else (xorFinal key store r, events)
    | none => (xorFinal key store r, events)

/-- `ServeXORFile`: head fetch, If-Modified-Since (400 on a parse
failure, 304 when the object is not strictly newer), then the range
logic.  Header values are `none` when absent and `some none` when
unparseable. -/
def ServeXORFile (key : List Nat) (store : Store) (ims : Option (Option Int))
    (rangeHeader : String) (ius : Option (Option Int)) : GoResponse × List Fetch :=
  match ims with
  | some none => (errResponse 400, [Fetch.head])
  | some (some t) =>
    if store.headLastModified ≤ t then (errResponse 304, [Fetch.head])
    else serveXORRange key store (resolveRangeXor store.size rangeHeader) ius
  | none => serveXORRange key store (resolveRangeXor store.size rangeHeader) ius

/-- Tail of `ServeCTRFile` after the body fetch and the
If-Unmodified-Since check: attach `NewCTRReader(body, block, iv, start)`
and emit the headers, with Content-Range over `fileSize - aes.BlockSize`. -/
def ctrFinal (E : Nat → Nat → Nat) (store : Store) (iv : List Nat)
    (r : ResolvedRange) : GoResponse :=
  let fetched := storeSlice store.content (r.start + 16) (r.stop + 16)
  { status := if r.isPartial then 206 else 200
    contentLength := some (r.stop - r.start + 1)
    contentRange := if r.isPartial then some (r.start, r.stop, store.size - 16) else none
    body := some (ctrReaderReadAll E iv r.start.toNat fetched) }

/-- `ServeCTRFile` from the resolved range on: the `start >= end` check
(416) — issued after the IV fetch — the ciphertext fetch shifted by
`aes.BlockSize`, the If-Unmodified-Since check (412), then the response. -/
def serveCTRRange (E : Nat → Nat → Nat) (store : Store) (iv : List Nat)
    (r : ResolvedRange) (ius : Option (Option Int)) : GoResponse × List Fetch :=
  if r.start ≥ r.stop then (errResponse 416, [Fetch.head, Fetch.getRange 0 15])
  else
    let events := [Fetch.head, Fetch.getRange 0 15, Fetch.getRange (r.start + 16) (r.stop + 16)]
    match ius with
    | some none => (errResponse 400, events)
    | some (some t) =>
      if t ≤ store.getLastModified then (errResponse 412, events)
      else (ctrFinal E store iv r, events)
    | none => (ctrFinal E store iv r, events)

/-- Middle of `ServeCTRFile`: fetch the IV as `bytes=0-15` and
`io.ReadFull` 16 bytes from it (500 on a short read), then resolve the
range against `realFileSize = fileSize - aes.BlockSize`. -/
def serveCTRIV (E : Nat → Nat → Nat) (store : Store) (rangeHeader : String)
    (ius : Option (Option Int)) : GoResponse × List Fetch :=
  let ivFetched := storeSlice store.content 0 15
  if ivFetched.length < 16 then (errResponse 500, [Fetch.head, Fetch.getRange 0 15])
  else serveCTRRange E store (ivFetched.take 16)
    (resolveRangeCtr (store.size - 16) rangeHeader) ius

/-- `ServeCTRFile`: head fetch, If-Modified-Since (400/304), the IV
fetch, the range logic against the logical size, the shifted body
fetch, If-Unmodified-Since (412), then the decrypted stream. -/
def ServeCTRFile (E : Nat → Nat → Nat) (store : Store) (ims : Option (Option Int))
    (rangeHeader : String) (ius : Option (Option Int)) : GoResponse × List Fetch :=
  match ims with
  | some none => (errResponse 400, [Fetch.head])
  | some (some t) =>
    if store.headLastModified ≤ t then (errResponse 304, [Fetch.head])
    else serveCTRIV E store rangeHeader ius
  | none => serveCTRIV E store rangeHeader ius

/-- The block cipher used in concrete counterexamples: distinguishes
counter blocks that differ in their high 64 bits. -/
def Edemo (c i : Nat) : Nat :=
  (c % 2 ^ 64 + c / 2 ^ 64 + i) % 256

/-- An IV whose low 64 bits are `2 ^ 64 - 1`, so that any block advance
wraps the seeded counter field. -/
def ivDemo : List Nat :=
  [0, 0, 0, 0, 0, 0, 0, 0, 255, 255, 255, 255, 255, 255, 255, 255]

/-- An all-zero IV (no wrap possible at small offsets). -/
def ivZero : List Nat := List.replicate 16 0

/-- A 10-byte stored object (XOR route: logical size 10). -/
def stSmall : Store := ⟨10, 0, 0, List.replicate 10 0⟩

/-- A 1-byte stored object. -/
def stOne : Store := ⟨1, 0, 0, [0]⟩

/-- A 36-byte stored object (CTR route: logical size 20). -/
def stMid : Store := ⟨36, 0, 0, List.replicate 36 0⟩

/-- The end-clamping rule in the words of the spec sentence behind claim
C6, for comparison with the code's resolvers: the end defaults to
`logicalSize - 1` when it is missing (parsed as 0), zero, or beyond the
logical size. -/
def specClampEnd (logicalSize e : Int) : Int :=
  if e = 0 ∨ e > logicalSize then logicalSize - 1 else e

/- ------------------------------------------------------------------ -/
/- Helper lemmas about the CTR stream embedding.                       -/
/- ------------------------------------------------------------------ -/

theorem ctrXorBytes_length (E : Nat → Nat → Nat) (c0 : Nat) :
    ∀ (pos : Nat) (data : List Nat), (ctrXorBytes E c0 pos data).length = data.length := by
  intro pos data
  induction data generalizing pos with
  | nil => rfl
  | cons b rest ih => simp [ctrXorBytes, ih]

theorem ctrXorBytes_getElem? (E : Nat → Nat → Nat) (c0 : Nat) :
    ∀ (pos : Nat) (data : List Nat) (k : Nat),
      (ctrXorBytes E c0 pos data)[k]? =
        (data[k]?).map (fun b => b ^^^ ctrKSByte E c0 (pos + k)) := by
  intro pos data
  induction data generalizing pos with
  | nil => intro k; simp [ctrXorBytes]
  | cons b rest ih =>
    intro k
    cases k with
    | zero => simp [ctrXorBytes]
    | succ k =>
      simp only [ctrXorBytes, List.getElem?_cons_succ]
      rw [show pos + (k + 1) = pos + 1 + k by omega]
      exact ih (pos + 1) k

theorem beFoldl_shift :
    ∀ (bs : List Nat) (a : Nat),
      bs.foldl (fun x b => x * 256 + b) a =
        a * 256 ^ bs.length + bs.foldl (fun x b => x * 256 + b) 0 := by
  intro bs
  induction bs with
  | nil => intro a; simp
  | cons b t ih =>
    intro a
    simp only [List.foldl, List.length_cons]
    rw [ih (a * 256 + b), ih (0 * 256 + b)]
    ring

theorem beBytesToNat_append (xs ys : List Nat) :
    beBytesToNat (xs ++ ys) = beBytesToNat xs * 256 ^ ys.length + beBytesToNat ys := by
  unfold beBytesToNat
  rw [List.foldl_append, beFoldl_shift ys]

theorem beBytesToNat_lt :
    ∀ (bs : List Nat), (∀ b ∈ bs, b < 256) → beBytesToNat bs < 256 ^ bs.length := by
  intro bs
  induction bs with
  | nil => intro _; simp [beBytesToNat]
  | cons b t ih =>
    intro h
    have hb : b < 256 := h b (by simp)
    have ht := ih (fun x hx => h x (by simp [hx]))
    have hcons : beBytesToNat (b :: t) = b * 256 ^ t.length + beBytesToNat t := by
      have := beBytesToNat_append [b] t
      simpa [beBytesToNat] using this
    rw [hcons, List.length_cons]
    calc b * 256 ^ t.length + beBytesToNat t
        < b * 256 ^ t.length + 256 ^ t.length := by omega
      _ = (b + 1) * 256 ^ t.length := by ring
      _ ≤ 256 * 256 ^ t.length := Nat.mul_le_mul (by omega) (le_refl _)
      _ = 256 ^ (t.length + 1) := by ring

theorem beNatToBytes8_length (x : Nat) : (beNatToBytes8 x).length = 8 := rfl

theorem beBytesToNat_beNatToBytes8 (x : Nat) :
    beBytesToNat (beNatToBytes8 x) = x % 2 ^ 64 := by
  simp [beBytesToNat, beNatToBytes8, List.foldl]
  omega

theorem NewCTRReaderIV_eq (iv : List Nat) (o : Nat) (h16 : iv.length = 16) :
    NewCTRReaderIV iv o =
      iv.take 8 ++ beNatToBytes8 ((beBytesToNat (iv.drop 8) + o / blockSize) % 2 ^ 64) := by
  unfold NewCTRReaderIV
  rw [h16]

theorem take8_length (iv : List Nat) (h16 : iv.length = 16) : (iv.take 8).length = 8 := by
  simp [h16]

theorem drop8_length (iv : List Nat) (h16 : iv.length = 16) : (iv.drop 8).length = 8 := by
  simp [h16]

theorem beBytesToNat_split (iv : List Nat) (h16 : iv.length = 16) :
    beBytesToNat iv = beBytesToNat (iv.take 8) * 2 ^ 64 + beBytesToNat (iv.drop 8) := by
  conv_lhs => rw [← List.take_append_drop 8 iv]
  rw [beBytesToNat_append, drop8_length iv h16]
  norm_num

theorem beBytesToNat_NewCTRReaderIV (iv : List Nat) (o : Nat) (h16 : iv.length = 16)
    (hnw : beBytesToNat (iv.drop 8) + o / blockSize < 2 ^ 64) :
    beBytesToNat (NewCTRReaderIV iv o) = beBytesToNat iv + o / blockSize := by
  rw [NewCTRReaderIV_eq iv o h16, beBytesToNat_append, beNatToBytes8_length,
    beBytesToNat_beNatToBytes8]
  have hm : (beBytesToNat (iv.drop 8) + o / blockSize) % 2 ^ 64 =
      beBytesToNat (iv.drop 8) + o / blockSize := Nat.mod_eq_of_lt hnw
  rw [hm, hm, beBytesToNat_split iv h16]
  have h2 : (256 : Nat) ^ 8 = 2 ^ 64 := by norm_num
  rw [h2]
  ring

theorem NewCTRReaderState_eq (iv : List Nat) (o : Nat) :
    NewCTRReaderState iv o =
      (beBytesToNat (NewCTRReaderIV iv o),
        if o % blockSize > 0 then o % blockSize else 0) := rfl

theorem NewCTRReaderState_pos (iv : List Nat) (o : Nat) :
    (NewCTRReaderState iv o).2 = o % blockSize := by
  rw [NewCTRReaderState_eq]
  dsimp only
  split <;> omega

theorem ctrKSByte_shift (E : Nat → Nat → Nat) (C o k : Nat) :
    ctrKSByte E (C + o / blockSize) (o % blockSize + k) = ctrKSByte E C (o + k) := by
  simp only [ctrKSByte, blockSize]
  have h1 : C + o / 16 + (o % 16 + k) / 16 = C + (o + k) / 16 := by omega
  have h2 : (o % 16 + k) % 16 = (o + k) % 16 := by omega
  rw [h1, h2]

theorem ctrReaderReadAll_getElem? (E : Nat → Nat → Nat) (iv : List Nat) (o : Nat)
    (data : List Nat) (k : Nat) (h16 : iv.length = 16)
    (hnw : beBytesToNat (iv.drop 8) + o / blockSize < 2 ^ 64) :
    (ctrReaderReadAll E iv o data)[k]? =
      (data[k]?).map (fun b => b ^^^ ctrKSByte E (beBytesToNat iv) (o + k)) := by
  unfold ctrReaderReadAll
  rw [ctrXorBytes_getElem?, NewCTRReaderState_pos]
  have hc0 : (NewCTRReaderState iv o).1 = beBytesToNat iv + o / blockSize := by
    rw [NewCTRReaderState_eq]
    exact beBytesToNat_NewCTRReaderIV iv o h16 hnw
  rw [hc0]
  have hfun :
      (fun b => b ^^^ ctrKSByte E (beBytesToNat iv + o / blockSize) (o % blockSize + k)) =
        (fun b => b ^^^ ctrKSByte E (beBytesToNat iv) (o + k)) := by
    funext b
    rw [ctrKSByte_shift]
  rw [hfun]

theorem ctrReaderReadAll_length (E : Nat → Nat → Nat) (iv : List Nat) (o : Nat)
    (data : List Nat) : (ctrReaderReadAll E iv o data).length = data.length := by
  unfold ctrReaderReadAll
  exact ctrXorBytes_length E _ _ data

theorem ivLow_lt (iv : List Nat) (h16 : iv.length = 16) (hb : ∀ b ∈ iv, b < 256) :
    beBytesToNat (iv.drop 8) < 2 ^ 64 := by
  have h := beBytesToNat_lt (iv.drop 8) (fun b hb2 => hb b (List.mem_of_mem_drop hb2))
  rw [drop8_length iv h16] at h
  have h2 : (256 : Nat) ^ 8 = 2 ^ 64 := by norm_num
  rw [h2] at h
  exact h

/- ------------------------------------------------------------------ -/
/- Helper lemmas about the repeating-key stream embedding.             -/
/- ------------------------------------------------------------------ -/

theorem xorLoop_length (key : List Nat) (off : Nat) :
    ∀ (i : Nat) (p : List Nat), (xorLoop key off i p).length = p.length := by
  intro i p
  induction p generalizing i with
  | nil => rfl
  | cons b rest ih => simp [xorLoop, ih]

theorem xorLoop_getElem? (key : List Nat) (off : Nat) :
    ∀ (i : Nat) (p : List Nat) (k : Nat),
      (xorLoop key off i p)[k]? =
        (p[k]?).map (fun b => b ^^^ key.getD ((off + (i + k)) % key.length) 0) := by
  intro i p
  induction p generalizing i with
  | nil => intro k; simp [xorLoop]
  | cons b rest ih =>
    intro k
    cases k with
    | zero => simp [xorLoop]
    | succ k =>
      simp only [xorLoop, List.getElem?_cons_succ]
      rw [show i + (k + 1) = i + 1 + k by omega]
      exact ih (i + 1) k

theorem xorReaderReadChunks_spec (key : List Nat) (hk : key.length ≠ 0) :
    ∀ (cs : List (List Nat)) (o : Nat),
      ∃ outs : List (List Nat),
        xorReaderReadChunks key o cs = some (outs, o + cs.flatten.length) ∧
        ∀ k : Nat, outs.flatten[k]? =
          (cs.flatten[k]?).map (fun b => b ^^^ key.getD ((o + k) % key.length) 0) := by
  intro cs
  induction cs with
  | nil =>
    intro o
    exact ⟨[], by simp [xorReaderReadChunks], by simp⟩
  | cons c cs ih =>
    intro o
    obtain ⟨outs, hrec, hidx⟩ := ih (o + c.length)
    refine ⟨xorLoop key o 0 c :: outs, ?_, ?_⟩
    · simp only [xorReaderReadChunks, xorReaderRead, hk, false_and, if_false,
        List.flatten_cons, List.length_append, hrec]
      have : o + c.length + cs.flatten.length = o + (c.length + cs.flatten.length) := by omega
      rw [this]
    · intro k
      simp only [List.flatten_cons]
      rw [List.getElem?_append, List.getElem?_append, xorLoop_length]
      by_cases hkc : k < c.length
      · simp only [hkc, if_true]
        have := xorLoop_getElem? key o 0 c k
        simpa using this
      · simp only [hkc, if_false]
        rw [hidx (k - c.length)]
        have harg : (fun b => b ^^^ key.getD ((o + c.length + (k - c.length)) % key.length) 0) =
            (fun b => b ^^^ key.getD ((o + k) % key.length) 0) := by
          funext b
          rw [show o + c.length + (k - c.length) = o + k by omega]
        rw [harg]

theorem xorLoop_involution (key : List Nat) (o : Nat) (p : List Nat) :
    xorLoop key o 0 (xorLoop key o 0 p) = p := by
  apply List.ext_getElem?
  intro k
  rw [xorLoop_getElem?, xorLoop_getElem?]
  cases h : p[k]? with
  | none => simp
  | some b => simp [Nat.xor_cancel_right]

/- ------------------------------------------------------------------ -/
/- Claim theorems: the counter-mode stream (C1, C2, C3).               -/
/- ------------------------------------------------------------------ -/

/-- Claim C1, as amended: counter-mode seek consistency.  For a fixed
block cipher and IV, the bytes produced by a reader constructed at
offset `o` over ciphertext bytes `[o, o+n)` equal the bytes obtained by
constructing the reader at offset 0 over `[0, o+n)` and discarding the
first `o` output bytes — provided the addition of `o / blockSize` into
the IV's low 64 bits does not wrap (the amendment forced by
`C1_counterexample`: `NewCTRReader` wraps that field modulo `2 ^ 64`
without carrying into the high bytes, while the sequential stream of the
offset-0 reader carries across the whole 16-byte counter). -/
theorem C1_ctr_seek_consistency (E : Nat → Nat → Nat) (iv : List Nat) (o : Nat)
    (ct : List Nat) (h16 : iv.length = 16) (hb : ∀ b ∈ iv, b < 256)
    (hnw : beBytesToNat (iv.drop 8) + o / blockSize < 2 ^ 64) :
    ctrReaderReadAll E iv o (ct.drop o) = (ctrReaderReadAll E iv 0 ct).drop o := by
  apply List.ext_getElem?
  intro k
  rw [ctrReaderReadAll_getElem? E iv o (ct.drop o) k h16 hnw,
    List.getElem?_drop ct o k,
    List.getElem?_drop (ctrReaderReadAll E iv 0 ct) o k,
    ctrReaderReadAll_getElem? E iv 0 ct (o + k) h16
      (by simpa using ivLow_lt iv h16 hb)]
  simp

/-- Witness for C1 at a concrete non-block-aligned offset. -/
theorem C1_witness :
    ivZero.length = 16 ∧ (∀ b ∈ ivZero, b < 256) ∧
    beBytesToNat (ivZero.drop 8) + 21 / blockSize < 2 ^ 64 ∧
    ctrReaderReadAll Edemo ivZero 21 ((List.replicate 30 1).drop 21) =
      (ctrReaderReadAll Edemo ivZero 0 (List.replicate 30 1)).drop 21 :=
  ⟨by decide, by decide, by decide,
    C1_ctr_seek_consistency Edemo ivZero 21 (List.replicate 30 1)
      (by decide) (by decide) (by decide)⟩

/-- Counterexample to C1 as stated: with an IV whose low 64 bits are
`2 ^ 64 - 1`, the reader seeded at offset 16 (counter field wraps to 0)
disagrees with the offset-0 reader after its 17th byte (whose counter
carried into the high IV bytes). -/
theorem C1_counterexample :
    ctrReaderReadAll Edemo ivDemo 16 ((List.replicate 17 0).drop 16) ≠
      (ctrReaderReadAll Edemo ivDemo 0 (List.replicate 17 0)).drop 16 := by
  decide

/-- Claim C2: `NewCTRReader` seeds the stream with a counter register
whose low 64 bits are the IV's low 64 bits plus `o / blockSize` modulo
`2 ^ 64`, leaves the remaining high/nonce bytes unchanged, and discards
exactly `o % blockSize` keystream bytes before the first emitted output
byte. -/
theorem C2_ctr_seek_derivation (E : Nat → Nat → Nat) (iv : List Nat) (o : Nat)
    (h16 : iv.length = 16) :
    (NewCTRReaderIV iv o).take 8 = iv.take 8 ∧
    beBytesToNat ((NewCTRReaderIV iv o).drop 8) =
      (beBytesToNat (iv.drop 8) + o / blockSize) % 2 ^ 64 ∧
    (NewCTRReaderState iv o).1 % 2 ^ 64 =
      (beBytesToNat (iv.drop 8) + o / blockSize) % 2 ^ 64 ∧
    (NewCTRReaderState iv o).1 / 2 ^ 64 = beBytesToNat (iv.take 8) ∧
    (NewCTRReaderState iv o).2 = o % blockSize ∧
    ∀ b : Nat, ctrReaderReadAll E iv o [b] =
      [b ^^^ ctrKSByte E (NewCTRReaderState iv o).1 (o % blockSize)] := by
  have hIV := NewCTRReaderIV_eq iv o h16
  have hdropIV : beBytesToNat ((NewCTRReaderIV iv o).drop 8) =
      (beBytesToNat (iv.drop 8) + o / blockSize) % 2 ^ 64 := by
    rw [hIV, List.drop_left' (take8_length iv h16), beBytesToNat_beNatToBytes8]
    omega
  have hc0 : (NewCTRReaderState iv o).1 =
      beBytesToNat (iv.take 8) * 2 ^ 64 +
        (beBytesToNat (iv.drop 8) + o / blockSize) % 2 ^ 64 := by
    rw [NewCTRReaderState_eq]
    dsimp only
    rw [hIV, beBytesToNat_append, beNatToBytes8_length, beBytesToNat_beNatToBytes8]
    have h2 : (256 : Nat) ^ 8 = 2 ^ 64 := by norm_num
    rw [h2]
    omega
  have hmlt : (beBytesToNat (iv.drop 8) + o / blockSize) % 2 ^ 64 < 2 ^ 64 :=
    Nat.mod_lt _ (by norm_num)
  refine ⟨?_, hdropIV, ?_, ?_, NewCTRReaderState_pos iv o, ?_⟩
  · rw [hIV]
    exact List.take_left' (take8_length iv h16)
  · rw [hc0]
    omega
  · rw [hc0]
    omega
  · intro b
    unfold ctrReaderReadAll
    rw [NewCTRReaderState_pos]
    simp [ctrXorBytes]

/-- Witness for C2 at a concrete IV and offset. -/
theorem C2_witness :
    ivDemo.length = 16 ∧
    ((NewCTRReaderIV ivDemo 21).take 8 = ivDemo.take 8 ∧
      beBytesToNat ((NewCTRReaderIV ivDemo 21).drop 8) =
        (beBytesToNat (ivDemo.drop 8) + 21 / blockSize) % 2 ^ 64 ∧
      (NewCTRReaderState ivDemo 21).1 % 2 ^ 64 =
        (beBytesToNat (ivDemo.drop 8) + 21 / blockSize) % 2 ^ 64 ∧
      (NewCTRReaderState ivDemo 21).1 / 2 ^ 64 = beBytesToNat (ivDemo.take 8) ∧
      (NewCTRReaderState ivDemo 21).2 = 21 % blockSize ∧
      ∀ b : Nat, ctrReaderReadAll Edemo ivDemo 21 [b] =
        [b ^^^ ctrKSByte Edemo (NewCTRReaderState ivDemo 21).1 (21 % blockSize)]) :=
  ⟨by decide, C2_ctr_seek_derivation Edemo ivDemo 21 (by decide)⟩

/-- Claim C3, as amended: counter-mode round-trip.  Encrypting through
the writer (raw IV first, then a sequential CTR encryption from counter
0) and reading back at plaintext offset `o` through IV extraction and a
reader seeded at `o` reproduces the plaintext from `o` on — provided
the addition of `o / blockSize` into the IV's low 64 bits does not wrap
(the amendment forced by `C3_counterexample`). -/
theorem C3_ctr_round_trip (E : Nat → Nat → Nat) (iv pt : List Nat) (o : Nat)
    (h16 : iv.length = 16) (hb : ∀ b ∈ iv, b < 256)
    (hnw : beBytesToNat (iv.drop 8) + o / blockSize < 2 ^ 64) :
    CTRRoundTrip E (CTRWriterOutput E iv pt) o = pt.drop o := by
  unfold CTRRoundTrip CTRWriterOutput
  have hbs : blockSize = 16 := rfl
  have htake : (iv ++ ctrXorBytes E (beBytesToNat iv) 0 pt).take blockSize = iv := by
    rw [hbs]
    exact List.take_left' h16
  have hdrop : (iv ++ ctrXorBytes E (beBytesToNat iv) 0 pt).drop (blockSize + o) =
      (ctrXorBytes E (beBytesToNat iv) 0 pt).drop o := by
    rw [hbs, show (16 : Nat) + o = iv.length + o by rw [h16], List.drop_append]
  rw [htake, hdrop]
  apply List.ext_getElem?
  intro k
  rw [ctrReaderReadAll_getElem? E iv o _ k h16 hnw,
    List.getElem?_drop (ctrXorBytes E (beBytesToNat iv) 0 pt) o k,
    ctrXorBytes_getElem?, List.getElem?_drop pt o k]
  cases h : pt[o + k]? with
  | none => simp
  | some b => simp [Nat.xor_cancel_right]

/-- Witness for C3 at offset 0, a mid-stream and a near-end offset. -/
theorem C3_witness :
    ivZero.length = 16 ∧ (∀ b ∈ ivZero, b < 256) ∧
    beBytesToNat (ivZero.drop 8) + 21 / blockSize < 2 ^ 64 ∧
    CTRRoundTrip Edemo (CTRWriterOutput Edemo ivZero (List.range 40)) 21 =
      (List.range 40).drop 21 ∧
    CTRRoundTrip Edemo (CTRWriterOutput Edemo ivZero (List.range 40)) 0 =
      List.range 40 ∧
    CTRRoundTrip Edemo (CTRWriterOutput Edemo ivZero (List.range 40)) 39 =
      (List.range 40).drop 39 :=
  ⟨by decide, by decide, by decide,
    C3_ctr_round_trip Edemo ivZero (List.range 40) 21 (by decide) (by decide) (by decide),
    by
      have h := C3_ctr_round_trip Edemo ivZero (List.range 40) 0 (by decide) (by decide) (by decide)
      simpa using h,
    C3_ctr_round_trip Edemo ivZero (List.range 40) 39 (by decide) (by decide) (by decide)⟩

/-- Counterexample to C3 as stated: with a freshly drawn IV whose low 64
bits are `2 ^ 64 - 1`, decrypting from offset 16 does not reproduce the
plaintext. -/
theorem C3_counterexample :
    CTRRoundTrip Edemo (CTRWriterOutput Edemo ivDemo (List.replicate 17 0)) 16 ≠
      (List.replicate 17 0).drop 16 := by
  decide

/- ------------------------------------------------------------------ -/
/- Claim theorems: the repeating-key stream (C4, C9).                  -/
/- ------------------------------------------------------------------ -/

/-- Claim C4: for a non-empty key, each `Read` call XORs byte `i`
(counted across all calls since construction at offset `o`) with
`key[(o + i) % len(key)]` and advances the cursor by the bytes consumed,
and the identical transform is its own inverse. -/
theorem C4_xor_transform (key : List Nat) (o off : Nat) (cs : List (List Nat))
    (c p : List Nat) (hk : key ≠ []) :
    xorReaderRead key off c = some (xorLoop key off 0 c, off + c.length) ∧
    (∃ outs : List (List Nat),
      xorReaderReadChunks key o cs = some (outs, o + cs.flatten.length) ∧
      ∀ k : Nat, outs.flatten[k]? =
        (cs.flatten[k]?).map (fun b => b ^^^ key.getD ((o + k) % key.length) 0)) ∧
    xorLoop key o 0 (xorLoop key o 0 p) = p := by
  have hk0 : key.length ≠ 0 := by
    simpa [List.length_eq_zero] using hk
  exact ⟨by simp [xorReaderRead, hk0], xorReaderReadChunks_spec key hk0 cs o,
    xorLoop_involution key o p⟩

/-- Witness for C4 on a concrete key, offset and chunked input. -/
theorem C4_witness :
    ([1, 2, 3] : List Nat) ≠ [] ∧
    (xorReaderRead [1, 2, 3] 7 [4, 5] = some (xorLoop [1, 2, 3] 7 0 [4, 5], 7 + 2) ∧
      (∃ outs : List (List Nat),
        xorReaderReadChunks [1, 2, 3] 5 [[9], [8, 7]] =
          some (outs, 5 + ([[9], [8, 7]] : List (List Nat)).flatten.length) ∧
        ∀ k : Nat, outs.flatten[k]? =
          (([[9], [8, 7]] : List (List Nat)).flatten[k]?).map
            (fun b => b ^^^ ([1, 2, 3] : List Nat).getD ((5 + k) % 3) 0)) ∧
      xorLoop [1, 2, 3] 5 0 (xorLoop [1, 2, 3] 5 0 [6]) = [6]) :=
  ⟨by decide, C4_xor_transform [1, 2, 3] 5 7 [[9], [8, 7]] [4, 5] [6] (by decide)⟩

/-- Claim C9 evidence: `NewXorReader` accepts the empty key without any
error (it has no error return at all), and the first `Read` of at least
one byte with an empty key faults (`% 0` panics in Go), while a
non-empty key transforms normally. -/
theorem C9_zero_key_not_rejected :
    (NewXorReader [] 0).key = [] ∧
    xorReaderRead [] 0 [7] = none ∧
    xorReaderRead [1] 0 [7] = some ([6], 1) :=
  ⟨rfl, by decide, by decide⟩

/- ------------------------------------------------------------------ -/
/- Helper lemmas about the handler embeddings.                         -/
/- ------------------------------------------------------------------ -/

theorem ivFetch_full (store : Store) (hwf : store.content.length = store.size.toNat)
    (hsz : 16 ≤ store.size) : ¬ (storeSlice store.content 0 15).length < 16 := by
  simp only [storeSlice, Int.toNat_zero, List.drop_zero, List.length_take, hwf,
    Int.toNat_ofNat]
  omega

theorem serveXORRange_cases (key : List Nat) (store : Store) (r : ResolvedRange)
    (ius : Option (Option Int)) :
    ((serveXORRange key store r ius).1.status = 304 → False) ∧
    ((serveXORRange key store r ius).1.status = 416 →
      (serveXORRange key store r ius).2 = [Fetch.head]) ∧
    ((serveXORRange key store r ius).1.status = 412 →
      (serveXORRange key store r ius).2 = [Fetch.head, Fetch.getRange r.start r.stop]) := by
  by_cases h : r.start ≥ r.stop
  · simp [serveXORRange, h, errResponse]
  · cases ius with
    | none =>
      simp only [serveXORRange, h, if_false, xorFinal]
      refine ⟨?_, ?_, ?_⟩ <;> intro hs <;> (try split at hs) <;> simp_all
    | some oi =>
      cases oi with
      | none => simp [serveXORRange, h, errResponse]
      | some t =>
        by_cases h2 : t ≤ store.getLastModified
        · simp [serveXORRange, h, h2, errResponse]
        · simp only [serveXORRange, h, if_false, h2, xorFinal]
          refine ⟨?_, ?_, ?_⟩ <;> intro hs <;> (try split at hs) <;> simp_all

theorem serveCTRRange_cases (E : Nat → Nat → Nat) (store : Store) (iv : List Nat)
    (r : ResolvedRange) (ius : Option (Option Int)) :
    ((serveCTRRange E store iv r ius).1.status = 304 → False) ∧
    ((serveCTRRange E store iv r ius).1.status = 416 →
      (serveCTRRange E store iv r ius).2 = [Fetch.head, Fetch.getRange 0 15]) ∧
    ((serveCTRRange E store iv r ius).1.status = 412 →
      (serveCTRRange E store iv r ius).2 =
        [Fetch.head, Fetch.getRange 0 15,
          Fetch.getRange (r.start + 16) (r.stop + 16)]) := by
  by_cases h : r.start ≥ r.stop
  · simp [serveCTRRange, h, errResponse]
  · cases ius with
    | none =>
      simp only [serveCTRRange, h, if_false, ctrFinal]
      refine ⟨?_, ?_, ?_⟩ <;> intro hs <;> (try split at hs) <;> simp_all
    | some oi =>
      cases oi with
      | none => simp [serveCTRRange, h, errResponse]
      | some t =>
        by_cases h2 : t ≤ store.getLastModified
        · simp [serveCTRRange, h, h2, errResponse]
        · simp only [serveCTRRange, h, if_false, h2, ctrFinal]
          refine ⟨?_, ?_, ?_⟩ <;> intro hs <;> (try split at hs) <;> simp_all

theorem serveCTRIV_cases (E : Nat → Nat → Nat) (store : Store) (hdr : String)
    (ius : Option (Option Int)) :
    ((serveCTRIV E store hdr ius).1.status = 304 → False) ∧
    ((serveCTRIV E store hdr ius).1.status = 416 →
      (serveCTRIV E store hdr ius).2 = [Fetch.head, Fetch.getRange 0 15]) ∧
    ((serveCTRIV E store hdr ius).1.status = 412 →
      (serveCTRIV E store hdr ius).2 =
        [Fetch.head, Fetch.getRange 0 15,
          Fetch.getRange ((resolveRangeCtr (store.size - 16) hdr).start + 16)
            ((resolveRangeCtr (store.size - 16) hdr).stop + 16)]) := by
  unfold serveCTRIV
  by_cases hiv : (storeSlice store.content 0 15).length < 16
  · simp [hiv, errResponse]
  · simp only [hiv, if_false]
    exact serveCTRRange_cases E store _ _ ius

/- ------------------------------------------------------------------ -/
/- Claim theorems: the range/conditional handling (C5-C8, C10).        -/
/- ------------------------------------------------------------------ -/

/-- Claim C5 evidence, at the failing input: on the XOR route with a
10-byte object, `Range: bytes=0-10` is not clamped (the code only
clamps `end > fileSize`), the handler proceeds to the body fetch for
the range `[0, 10]` and answers 206, yet `end = 10` is not `<
logicalSize = 10` — contradicting the ByteRange invariant (the CTR
route clamps `end >= logicalSize`). -/
theorem C5_range_invariant_violated :
    (ServeXORFile [1] stSmall none "bytes=0-10" none).1.status = 206 ∧
    (ServeXORFile [1] stSmall none "bytes=0-10" none).2 =
      [Fetch.head, Fetch.getRange 0 10] ∧
    (ServeXORFile [1] stSmall none "bytes=0-10" none).1.contentRange =
      some (0, 10, 10) ∧
    resolveRangeXor stSmall.size "bytes=0-10" = ⟨0, 10, true⟩ ∧
    ¬ ((10 : Int) < stSmall.size) :=
  ⟨by decide, by decide, by decide, by decide, by decide⟩

/-- Counterexample to C6 as stated: on the counter-mode route an end
exactly equal to the logical size is clamped, although it is not beyond
the logical size (the spec-worded rule keeps it). -/
theorem C6_counterexample :
    (resolveRangeCtr 1000 "bytes=0-1000").stop = 999 ∧
    specClampEnd 1000 (parseInt64 "1000") = 1000 ∧
    (resolveRangeCtr 1000 "bytes=0-1000").stop ≠ specClampEnd 1000 (parseInt64 "1000") :=
  ⟨by decide, by decide, by decide⟩

/-- Claim C6, as amended: range defaulting and clamping.  An absent
header serves the full range `[0, logicalSize-1]` (status 200); a
well-formed `bytes=<start>-<end>` header is partial, with a
missing/negative start defaulted to 0 and the end replaced by
`logicalSize - 1` when it is missing (parsed 0), zero, or out of range —
where the repeating-key route replaces it only when `end > fileSize`
(keeping `end = fileSize`) while the counter-mode route replaces it
already when `end ≥ logicalSize` (the amendment forced by
`C6_counterexample`).  The spec's concrete example 500-1500 ↦ 500-999
holds on both routes. -/
theorem C6_range_defaulting (key : List Nat) (E : Nat → Nat → Nat) (store : Store)
    (hdr a b : String)
    (hwf : store.content.length = store.size.toNat) (hsz : 18 ≤ store.size)
    (hne : hdr ≠ "") (hparts : splitDash (trimPrefixGo hdr "bytes=") = [a, b]) :
    resolveRangeXor store.size hdr =
      ⟨if parseInt64 a < 0 then 0 else parseInt64 a,
        if parseInt64 b = 0 ∨ parseInt64 b > store.size then store.size - 1 else parseInt64 b,
        true⟩ ∧
    resolveRangeCtr (store.size - 16) hdr =
      ⟨if parseInt64 a < 0 then 0 else parseInt64 a,
        if parseInt64 b = 0 ∨ parseInt64 b ≥ store.size - 16 then store.size - 16 - 1
          else parseInt64 b,
        true⟩ ∧
    (ServeXORFile key store none "" none).1.status = 200 ∧
    (ServeXORFile key store none "" none).1.contentRange = none ∧
    (ServeXORFile key store none "" none).2 =
      [Fetch.head, Fetch.getRange 0 (store.size - 1)] ∧
    (ServeCTRFile E store none "" none).1.status = 200 ∧
    (ServeCTRFile E store none "" none).2 =
      [Fetch.head, Fetch.getRange 0 15, Fetch.getRange 16 (store.size - 1)] ∧
    ((resolveRangeXor store.size hdr).start < (resolveRangeXor store.size hdr).stop →
      (ServeXORFile key store none hdr none).1.status = 206 ∧
      (ServeXORFile key store none hdr none).1.contentRange =
        some ((resolveRangeXor store.size hdr).start,
          (resolveRangeXor store.size hdr).stop, store.size)) ∧
    ((resolveRangeCtr (store.size - 16) hdr).start <
        (resolveRangeCtr (store.size - 16) hdr).stop →
      (ServeCTRFile E store none hdr none).1.status = 206 ∧
      (ServeCTRFile E store none hdr none).1.contentRange =
        some ((resolveRangeCtr (store.size - 16) hdr).start,
          (resolveRangeCtr (store.size - 16) hdr).stop, store.size - 16)) ∧
    resolveRangeXor 1000 "bytes=500-1500" = ⟨500, 999, true⟩ ∧
    resolveRangeCtr 1000 "bytes=500-1500" = ⟨500, 999, true⟩ := by
  have hresX : resolveRangeXor store.size hdr =
      ⟨if parseInt64 a < 0 then 0 else parseInt64 a,
        if parseInt64 b = 0 ∨ parseInt64 b > store.size then store.size - 1 else parseInt64 b,
        true⟩ := by
    simp [resolveRangeXor, hne, hparts]
  have hresC : resolveRangeCtr (store.size - 16) hdr =
      ⟨if parseInt64 a < 0 then 0 else parseInt64 a,
        if parseInt64 b = 0 ∨ parseInt64 b ≥ store.size - 16 then store.size - 16 - 1
          else parseInt64 b,
        true⟩ := by
    simp [resolveRangeCtr, hne, hparts]
  have hresXe : resolveRangeXor store.size "" = ⟨0, store.size - 1, false⟩ := by
    simp [resolveRangeXor]
  have hresCe : resolveRangeCtr (store.size - 16) "" = ⟨0, store.size - 16 - 1, false⟩ := by
    simp [resolveRangeCtr]
  have hivlen := ivFetch_full store hwf (by omega)
  have hne2 : ¬ ((0 : Int) ≥ store.size - 1) := by omega
  have hne3 : ¬ ((0 : Int) ≥ store.size - 16 - 1) := by omega
  have hXfull : ServeXORFile key store none "" none =
      (xorFinal key store ⟨0, store.size - 1, false⟩,
        [Fetch.head, Fetch.getRange 0 (store.size - 1)]) := by
    simp [ServeXORFile, serveXORRange, hresXe, hne2]
  have hCfull : ServeCTRFile E store none "" none =
      (ctrFinal E store ((storeSlice store.content 0 15).take 16)
          ⟨0, store.size - 16 - 1, false⟩,
        [Fetch.head, Fetch.getRange 0 15,
          Fetch.getRange (0 + 16) (store.size - 16 - 1 + 16)]) := by
    simp [ServeCTRFile, serveCTRIV, hivlen, serveCTRRange, hresCe, hne3]
  have harith : store.size - 16 - 1 + 16 = store.size - 1 := by omega
  refine ⟨hresX, hresC, ?_, ?_, ?_, ?_, ?_, ?_, ?_, by decide, by decide⟩
  · rw [hXfull]; simp [xorFinal]
  · rw [hXfull]; simp [xorFinal]
  · rw [hXfull]
  · rw [hCfull]; simp [ctrFinal]
  · rw [hCfull]; simp [harith]
  · intro hlt
    have h416 : ¬ ((resolveRangeXor store.size hdr).start ≥
        (resolveRangeXor store.size hdr).stop) := by omega
    have hpart : (resolveRangeXor store.size hdr).isPartial = true := by
      rw [hresX]
    constructor
    · simp [ServeXORFile, serveXORRange, h416, xorFinal, hpart]
    · simp [ServeXORFile, serveXORRange, h416, xorFinal, hpart]
  · intro hlt
    have h416 : ¬ ((resolveRangeCtr (store.size - 16) hdr).start ≥
        (resolveRangeCtr (store.size - 16) hdr).stop) := by omega
    have hpart : (resolveRangeCtr (store.size - 16) hdr).isPartial = true := by
      rw [hresC]
    constructor
    · simp [ServeCTRFile, serveCTRIV, hivlen, serveCTRRange, h416, ctrFinal, hpart]
    · simp [ServeCTRFile, serveCTRIV, hivlen, serveCTRRange, h416, ctrFinal, hpart]

/-- Witness for C6 on a concrete in-range request. -/
theorem C6_witness :
    stMid.content.length = stMid.size.toNat ∧ (18 : Int) ≤ stMid.size ∧
    ("bytes=3-7" : String) ≠ "" ∧
    splitDash (trimPrefixGo "bytes=3-7" "bytes=") = ["3", "7"] ∧
    (resolveRangeXor stMid.size "bytes=3-7" =
      ⟨if parseInt64 "3" < 0 then 0 else parseInt64 "3",
        if parseInt64 "7" = 0 ∨ parseInt64 "7" > stMid.size then stMid.size - 1
          else parseInt64 "7",
        true⟩ ∧
    resolveRangeCtr (stMid.size - 16) "bytes=3-7" =
      ⟨if parseInt64 "3" < 0 then 0 else parseInt64 "3",
        if parseInt64 "7" = 0 ∨ parseInt64 "7" ≥ stMid.size - 16 then stMid.size - 16 - 1
          else parseInt64 "7",
        true⟩ ∧
    (ServeXORFile [1] stMid none "" none).1.status = 200 ∧
    (ServeXORFile [1] stMid none "" none).1.contentRange = none ∧
    (ServeXORFile [1] stMid none "" none).2 =
      [Fetch.head, Fetch.getRange 0 (stMid.size - 1)] ∧
    (ServeCTRFile Edemo stMid none "" none).1.status = 200 ∧
    (ServeCTRFile Edemo stMid none "" none).2 =
      [Fetch.head, Fetch.getRange 0 15, Fetch.getRange 16 (stMid.size - 1)] ∧
    ((resolveRangeXor stMid.size "bytes=3-7").start <
        (resolveRangeXor stMid.size "bytes=3-7").stop →
      (ServeXORFile [1] stMid none "bytes=3-7" none).1.status = 206 ∧
      (ServeXORFile [1] stMid none "bytes=3-7" none).1.contentRange =
        some ((resolveRangeXor stMid.size "bytes=3-7").start,
          (resolveRangeXor stMid.size "bytes=3-7").stop, stMid.size)) ∧
    ((resolveRangeCtr (stMid.size - 16) "bytes=3-7").start <
        (resolveRangeCtr (stMid.size - 16) "bytes=3-7").stop →
      (ServeCTRFile Edemo stMid none "bytes=3-7" none).1.status = 206 ∧
      (ServeCTRFile Edemo stMid none "bytes=3-7" none).1.contentRange =
        some ((resolveRangeCtr (stMid.size - 16) "bytes=3-7").start,
          (resolveRangeCtr (stMid.size - 16) "bytes=3-7").stop, stMid.size - 16)) ∧
    resolveRangeXor 1000 "bytes=500-1500" = ⟨500, 999, true⟩ ∧
    resolveRangeCtr 1000 "bytes=500-1500" = ⟨500, 999, true⟩) :=
  ⟨by decide, by decide, by decide, by decide,
    C6_range_defaulting [1] Edemo stMid "bytes=3-7" "3" "7"
      (by decide) (by decide) (by decide) (by decide)⟩

/-- Claim C7: the defaulted and clamped range is rejected with 416
exactly when it fails `start < end` (so `start = end` is rejected too),
on both routes, for requests without conditional headers. -/
theorem C7_unsatisfiable_check (key : List Nat) (E : Nat → Nat → Nat) (store : Store)
    (hdr : String) (hwf : store.content.length = store.size.toNat)
    (hsz : 16 ≤ store.size) :
    ((ServeXORFile key store none hdr none).1.status = 416 ↔
      ¬ ((resolveRangeXor store.size hdr).start < (resolveRangeXor store.size hdr).stop)) ∧
    ((ServeCTRFile E store none hdr none).1.status = 416 ↔
      ¬ ((resolveRangeCtr (store.size - 16) hdr).start <
        (resolveRangeCtr (store.size - 16) hdr).stop)) := by
  have hivlen := ivFetch_full store hwf hsz
  constructor
  · by_cases h : (resolveRangeXor store.size hdr).start ≥ (resolveRangeXor store.size hdr).stop
    · simp only [ServeXORFile, serveXORRange, h, if_true, errResponse]
      constructor
      · intro _; omega
      · intro _; trivial
    · have hlt : (resolveRangeXor store.size hdr).start <
          (resolveRangeXor store.size hdr).stop := by omega
      simp only [ServeXORFile, serveXORRange, h, if_false, xorFinal]
      constructor
      · intro hs
        split at hs <;> simp_all
      · intro hn
        exact absurd hlt hn
  · by_cases h : (resolveRangeCtr (store.size - 16) hdr).start ≥
        (resolveRangeCtr (store.size - 16) hdr).stop
    · simp only [ServeCTRFile, serveCTRIV, hivlen, if_false, serveCTRRange, h, if_true,
        errResponse]
      constructor
      · intro _; omega
      · intro _; trivial
    · have hlt : (resolveRangeCtr (store.size - 16) hdr).start <
          (resolveRangeCtr (store.size - 16) hdr).stop := by omega
      simp only [ServeCTRFile, serveCTRIV, hivlen, if_false, serveCTRRange, h, ctrFinal]
      constructor
      · intro hs
        split at hs <;> simp_all
      · intro hn
        exact absurd hlt hn

/-- Witness for C7 on concrete requests: `bytes=300-100` (end before
start) and the single-byte `bytes=3-3` are both rejected with 416, and
`bytes=3-7` is not. -/
theorem C7_witness :
    stMid.content.length = stMid.size.toNat ∧ (16 : Int) ≤ stMid.size ∧
    (((ServeXORFile [1] stMid none "bytes=300-100" none).1.status = 416 ↔
      ¬ ((resolveRangeXor stMid.size "bytes=300-100").start <
        (resolveRangeXor stMid.size "bytes=300-100").stop)) ∧
    ((ServeCTRFile Edemo stMid none "bytes=300-100" none).1.status = 416 ↔
      ¬ ((resolveRangeCtr (stMid.size - 16) "bytes=300-100").start <
        (resolveRangeCtr (stMid.size - 16) "bytes=300-100").stop))) ∧
    (((ServeXORFile [1] stMid none "bytes=3-3" none).1.status = 416 ↔
      ¬ ((resolveRangeXor stMid.size "bytes=3-3").start <
        (resolveRangeXor stMid.size "bytes=3-3").stop)) ∧
    ((ServeCTRFile Edemo stMid none "bytes=3-3" none).1.status = 416 ↔
      ¬ ((resolveRangeCtr (stMid.size - 16) "bytes=3-3").start <
        (resolveRangeCtr (stMid.size - 16) "bytes=3-3").stop))) ∧
    (((ServeXORFile [1] stMid none "bytes=3-7" none).1.status = 416 ↔
      ¬ ((resolveRangeXor stMid.size "bytes=3-7").start <
        (resolveRangeXor stMid.size "bytes=3-7").stop)) ∧
    ((ServeCTRFile Edemo stMid none "bytes=3-7" none).1.status = 416 ↔
      ¬ ((resolveRangeCtr (stMid.size - 16) "bytes=3-7").start <
        (resolveRangeCtr (stMid.size - 16) "bytes=3-7").stop))) :=
  ⟨by decide, by decide,
    C7_unsatisfiable_check [1] Edemo stMid "bytes=300-100" (by decide) (by decide),
    C7_unsatisfiable_check [1] Edemo stMid "bytes=3-3" (by decide) (by decide),
    C7_unsatisfiable_check [1] Edemo stMid "bytes=3-7" (by decide) (by decide)⟩

/-- Claim C8, as amended: fetch ordering around short-circuits.  A 304
(NotModified) is resolved with no range fetch at all; a 416
(Unsatisfiable) is resolved before any range fetch on the repeating-key
route but after the IV fetch on the counter-mode route (the amendment
forced by `C8_counterexample`); a 412 (PreconditionFailed) is by design
resolved only after the body fetch, whose own metadata it checks; after
each resolution no further fetch is issued. -/
theorem C8_fetch_order (key : List Nat) (E : Nat → Nat → Nat) (store : Store)
    (ims : Option (Option Int)) (hdr : String) (ius : Option (Option Int)) :
    ((ServeXORFile key store ims hdr ius).1.status = 304 →
      (ServeXORFile key store ims hdr ius).2 = [Fetch.head]) ∧
    ((ServeXORFile key store ims hdr ius).1.status = 416 →
      (ServeXORFile key store ims hdr ius).2 = [Fetch.head]) ∧
    ((ServeXORFile key store ims hdr ius).1.status = 412 →
      (ServeXORFile key store ims hdr ius).2 =
        [Fetch.head, Fetch.getRange (resolveRangeXor store.size hdr).start
          (resolveRangeXor store.size hdr).stop]) ∧
    ((ServeCTRFile E store ims hdr ius).1.status = 304 →
      (ServeCTRFile E store ims hdr ius).2 = [Fetch.head]) ∧
    ((ServeCTRFile E store ims hdr ius).1.status = 416 →
      (ServeCTRFile E store ims hdr ius).2 = [Fetch.head, Fetch.getRange 0 15]) ∧
    ((ServeCTRFile E store ims hdr ius).1.status = 412 →
      (ServeCTRFile E store ims hdr ius).2 =
        [Fetch.head, Fetch.getRange 0 15,
          Fetch.getRange ((resolveRangeCtr (store.size - 16) hdr).start + 16)
            ((resolveRangeCtr (store.size - 16) hdr).stop + 16)]) := by
  cases ims with
  | none =>
    have hx := serveXORRange_cases key store (resolveRangeXor store.size hdr) ius
    have hc := serveCTRIV_cases E store hdr ius
    exact ⟨fun hs => (hx.1 hs).elim, hx.2.1, hx.2.2,
      fun hs => (hc.1 hs).elim, hc.2.1, hc.2.2⟩
  | some oi =>
    cases oi with
    | none => simp [ServeXORFile, ServeCTRFile, errResponse]
    | some t =>
      by_cases hm : store.headLastModified ≤ t
      · simp [ServeXORFile, ServeCTRFile, hm, errResponse]
      · simp only [ServeXORFile, ServeCTRFile, hm, if_false]
        have hx := serveXORRange_cases key store (resolveRangeXor store.size hdr) ius
        have hc := serveCTRIV_cases E store hdr ius
        exact ⟨fun hs => (hx.1 hs).elim, hx.2.1, hx.2.2,
          fun hs => (hc.1 hs).elim, hc.2.1, hc.2.2⟩

/-- Counterexample to C8 as stated: a counter-mode request with range
`bytes=300-100` resolves Unsatisfiable (416), yet the IV fetch
`bytes=0-15` has been issued for it. -/
theorem C8_counterexample :
    (ServeCTRFile Edemo stMid none "bytes=300-100" none).1.status = 416 ∧
    Fetch.getRange 0 15 ∈ (ServeCTRFile Edemo stMid none "bytes=300-100" none).2 :=
  ⟨by decide, by decide⟩

/-- Counterexample to C10 as stated: on a 1-byte object a malformed
Range header (multi-range) falls back to the defaulted range `[0, 0]`,
which fails the `start < end` check, so the response is 416, not 206. -/
theorem C10_counterexample :
    (ServeXORFile [1] stOne none "bytes=0-5,10-15" none).1.status = 416 ∧
    (416 : Nat) ≠ 206 :=
  ⟨by decide, by decide⟩

/-- Claim C10, as amended: a present Range header that does not split
into exactly two parts around `-`, or whose parts are non-numeric
(parsing to 0), keeps the defaulted full range and is served as 206
Partial Content with a Content-Range over that defaulted range — for
requests without conditional headers and logical size at least 2 (the
amendment forced by `C10_counterexample`: on a logical size of at most 1
the defaulted range itself fails `start < end` and yields 416). -/
theorem C10_malformed_range_tolerated (key : List Nat) (E : Nat → Nat → Nat)
    (store : Store) (hdr : String)
    (hwf : store.content.length = store.size.toNat) (hsz : 18 ≤ store.size)
    (hne : hdr ≠ "")
    (hmal : (splitDash (trimPrefixGo hdr "bytes=")).length ≠ 2 ∨
      ∃ a b : String, splitDash (trimPrefixGo hdr "bytes=") = [a, b] ∧
        parseInt64 a = 0 ∧ parseInt64 b = 0) :
    (ServeXORFile key store none hdr none).1.status = 206 ∧
    (ServeXORFile key store none hdr none).1.contentRange =
      some (0, store.size - 1, store.size) ∧
    (ServeXORFile key store none hdr none).2 =
      [Fetch.head, Fetch.getRange 0 (store.size - 1)] ∧
    (ServeCTRFile E store none hdr none).1.status = 206 ∧
    (ServeCTRFile E store none hdr none).1.contentRange =
      some (0, store.size - 16 - 1, store.size - 16) ∧
    (ServeCTRFile E store none hdr none).2 =
      [Fetch.head, Fetch.getRange 0 15, Fetch.getRange 16 (store.size - 1)] := by
  have hresX : resolveRangeXor store.size hdr = ⟨0, store.size - 1, true⟩ := by
    rcases hmal with hlen | ⟨a, b, hab, hpa, hpb⟩
    · simp [resolveRangeXor, hne, hlen]
    · simp [resolveRangeXor, hne, hab, hpa, hpb]
  have hresC : resolveRangeCtr (store.size - 16) hdr =
      ⟨0, store.size - 16 - 1, true⟩ := by
    rcases hmal with hlen | ⟨a, b, hab, hpa, hpb⟩
    · simp [resolveRangeCtr, hne, hlen]
    · simp [resolveRangeCtr, hne, hab, hpa, hpb]
  have hivlen := ivFetch_full store hwf (by omega)
  have hne2 : ¬ ((0 : Int) ≥ store.size - 1) := by omega
  have hne3 : ¬ ((0 : Int) ≥ store.size - 16 - 1) := by omega
  have harith : store.size - 16 - 1 + 16 = store.size - 1 := by omega
  have hXeq : ServeXORFile key store none hdr none =
      (xorFinal key store ⟨0, store.size - 1, true⟩,
        [Fetch.head, Fetch.getRange 0 (store.size - 1)]) := by
    simp [ServeXORFile, serveXORRange, hresX, hne2]
  have hCeq : ServeCTRFile E store none hdr none =
      (ctrFinal E store ((storeSlice store.content 0 15).take 16)
          ⟨0, store.size - 16 - 1, true⟩,
        [Fetch.head, Fetch.getRange 0 15,
          Fetch.getRange (0 + 16) (store.size - 16 - 1 + 16)]) := by
    simp [ServeCTRFile, serveCTRIV, hivlen, serveCTRRange, hresC, hne3]
  refine ⟨?_, ?_, ?_, ?_, ?_, ?_⟩
  · rw [hXeq]; simp [xorFinal]
  · rw [hXeq]; simp [xorFinal]
  · rw [hXeq]
  · rw [hCeq]; simp [ctrFinal]
  · rw [hCeq]; simp [ctrFinal]
  · rw [hCeq]; simp [harith]

/-- Witness for C10 on a concrete multi-range header, which splits into
three parts. -/
theorem C10_witness :
    stMid.content.length = stMid.size.toNat ∧ (18 : Int) ≤ stMid.size ∧
    ("bytes=0-5,10-15" : String) ≠ "" ∧
    (splitDash (trimPrefixGo "bytes=0-5,10-15" "bytes=")).length ≠ 2 ∧
    ((ServeXORFile [1] stMid none "bytes=0-5,10-15" none).1.status = 206 ∧
    (ServeXORFile [1] stMid none "bytes=0-5,10-15" none).1.contentRange =
      some (0, stMid.size - 1, stMid.size) ∧
    (ServeXORFile [1] stMid none "bytes=0-5,10-15" none).2 =
      [Fetch.head, Fetch.getRange 0 (stMid.size - 1)] ∧
    (ServeCTRFile Edemo stMid none "bytes=0-5,10-15" none).1.status = 206 ∧
    (ServeCTRFile Edemo stMid none "bytes=0-5,10-15" none).1.contentRange =
      some (0, stMid.size - 16 - 1, stMid.size - 16) ∧
    (ServeCTRFile Edemo stMid none "bytes=0-5,10-15" none).2 =
      [Fetch.head, Fetch.getRange 0 15, Fetch.getRange 16 (stMid.size - 1)]) :=
  ⟨by decide, by decide, by decide, by decide,
    C10_malformed_range_tolerated [1] Edemo stMid "bytes=0-5,10-15"
      (by decide) (by decide) (by decide) (Or.inl (by decide))⟩

end S3FS
